import Mathlib

/-!
Verification of the scene/channel/timepoint exporter
`split_lif_to_channels` from `functions/lif_split_channels_to_ome.py`.

Strings are modelled as `List Char`; filesystem paths as lists of
path components.  The exporter is embedded as a pure function from an
image model and the call arguments to a trace of filesystem events
together with either the returned list of written paths or the raised
error.  Pixel data is irrelevant to every property below and is not
modelled; reads of pixel data perform no filesystem mutation.
-/

deriving instance DecidableEq for Except

namespace LifSplit

abbrev Str := List Char

/-- Convert a Lean string literal to the `List Char` representation. -/
def str (s : String) : Str := s.data

/-! ## Sanitization (`_safe`) -/

/--
Python's `re` module with a `str` pattern treats `\w` as Unicode-aware:
it matches `[a-zA-Z0-9_]` and the non-ASCII word characters.  We model
the ASCII range exactly and, of the non-ASCII word characters, the
Latin-1 supplement letters (U+00AA, U+00B5, U+00BA, U+00C0–U+00D6,
U+00D8–U+00F6, U+00F8–U+00FF); characters above U+00FF are outside the
modelled alphabet.
-/
def pyIsWordChar (c : Char) : Bool :=
  (0x41 ≤ c.toNat && c.toNat ≤ 0x5A) || (0x61 ≤ c.toNat && c.toNat ≤ 0x7A) ||
  (0x30 ≤ c.toNat && c.toNat ≤ 0x39) || c.toNat = 0x5F ||
  c.toNat = 0xAA || c.toNat = 0xB5 || c.toNat = 0xBA ||
  (0xC0 ≤ c.toNat && c.toNat ≤ 0xD6) ||
  (0xD8 ≤ c.toNat && c.toNat ≤ 0xF6) ||
  (0xF8 ≤ c.toNat && c.toNat ≤ 0xFF)

/-- A character kept (not replaced) by `re.sub(r"[^\w\-.]+", "_", ·)`:
a word character, `-` (U+002D) or `.` (U+002E). -/
def keepChar (c : Char) : Bool :=
  pyIsWordChar c || c.toNat = 0x2D || c.toNat = 0x2E

/--
`re.sub(r"[^\w\-.]+", "_", s)`: replace every maximal run of
non-kept characters by a single underscore.  The flag records whether
we are currently inside such a run (so that the run contributes only
its first underscore).
-/
def pySubAux : Bool → List Char → List Char
  | _, [] => []
  | inRun, c :: cs =>
    if keepChar c then c :: pySubAux false cs
    else if inRun then pySubAux true cs
    else '_' :: pySubAux true cs

/-- `re.sub(r"[^\w\-.]+", "_", s)` with runs collapsed. -/
def pySub (l : List Char) : List Char := pySubAux false l

/-- Python `s.strip("_")`: drop leading and trailing underscores. -/
def stripUnders (l : List Char) : List Char :=
  ((l.dropWhile (· = '_')).reverse.dropWhile (· = '_')).reverse

/-- `_safe(name)`: sanitize, strip underscores, default to "unnamed". -/
def safe (name : Str) : Str :=
  let t := stripUnders (pySub name)
  if t.isEmpty then str "unnamed" else t

/-! ## Data model of the exporter -/

/-- Errors `split_lif_to_channels` can raise on the modelled paths:
`FileNotFoundError`, `ValueError` for a bad dtype, and Python's
`IndexError` from list indexing. -/
inductive Err where
  | inputNotFound
  | invalidArgument
  | indexError
deriving DecidableEq, Repr

/-- Filesystem events performed by a run, in program order:
`Path.mkdir` calls, the `BioImage` container open, and
`OmeTiffWriter.save` calls.  Pixel reads mutate nothing. -/
inductive Event where
  | mkdir (p : List Str)
  | openImage
  | write (p : List Str)
deriving DecidableEq, Repr

/-- One scene as reported by the image library: its identifier, the
dimension labels and shape after `set_scene`, and the per-scene
`img.channel_names` (`none` models both a `None` result and an
exception from the accessor, which the code treats alike). -/
structure Scene where
  id : Str
  labels : List Char
  shape : List Nat
  channelNames : Option (List Str)
deriving DecidableEq, Repr

/-- The opened image: scene list in library-reported order and the
file-level `img.channel_names` read right after opening. -/
structure Image where
  scenes : List Scene
  baseChannelNames : Option (List Str)
deriving DecidableEq, Repr

/-- Arguments of one call, after path resolution: whether
`lif_path` exists, `lif_path.stem`, the resolved output directory as
path components, and the keyword arguments that affect behaviour. -/
structure Args where
  inputExists : Bool
  stem : Str
  outdir : List Str
  dtype : Str
  includeEmpty : Bool
  channelNames : Option (List Str)
deriving DecidableEq, Repr

/-- `dict(zip(labels, shape)).get(d)`: the last shape entry paired
with label `d` (Python dicts keep the last duplicate key). -/
def sizeMapGet (labels : List Char) (shape : List Nat) (d : Char) : Option Nat :=
  (labels.zip shape).foldl (fun acc p => if p.1 = d then some p.2 else acc) none

/-- `size_map.get(d, 1)`. -/
def dimSize (s : Scene) (d : Char) : Nat :=
  (sizeMapGet s.labels s.shape d).getD 1

/-- Python `f"{c:02d}"`: decimal digits zero-padded to width 2. -/
def pad2 (c : Nat) : Str :=
  let ds := Nat.toDigits 10 c
  if ds.length = 1 then '0' :: ds else ds

/-- `override_names = list(channel_names) if channel_names else None`:
an empty user list is falsy and behaves like no override. -/
def overrideNames (a : Args) : Option (List Str) :=
  match a.channelNames with
  | some l => if l.isEmpty then none else some l
  | none => none

/-- The `scene_names` resolution: positional override when supplied,
else the (truthy) metadata list verbatim, else `None` placeholders. -/
def resolveNames (ov : Option (List Str)) (sceneCh : Option (List Str))
    (nC : Nat) : List (Option Str) :=
  match ov with
  | some o => (List.range nC).map (fun i => o.get? i)
  | none =>
    match sceneCh with
    | some l => if l.isEmpty then List.replicate nC none else l.map some
    | none => List.replicate nC none

/-- The channel discriminator of the filename.  Mirrors
`if scene_names and scene_names[c]`: an empty `scene_names` short
circuits to the index label; otherwise `scene_names[c]` is indexed and
raises `IndexError` when out of range; a `None` or empty name also
falls back to the index label. -/
def chPart (names : List (Option Str)) (c : Nat) : Except Err Str :=
  if names.isEmpty then .ok (str "_c" ++ pad2 c)
  else
    match names.get? c with
    | none => .error .indexError
    | some o =>
      .ok (match o with
        | some nm => if nm.isEmpty then str "_c" ++ pad2 c else str "_ch-" ++ safe nm
        | none => str "_c" ++ pad2 c)

/-- `f"scene_{_safe(scene)}"`. -/
def sceneDirName (sceneId : Str) : Str := str "scene_" ++ safe sceneId

/-- `f"{lif_path.stem}_scene-{_safe(scene)}{ch_part}.ome.tif"`. -/
def fnameFor (stem sceneId cp : Str) : Str :=
  stem ++ str "_scene-" ++ safe sceneId ++ cp ++ str ".ome.tif"

/-- `scene_dir / fname` as path components. -/
def pathFor (a : Args) (sceneId cp : Str) : List Str :=
  a.outdir ++ [sceneDirName sceneId, fnameFor a.stem sceneId cp]

/-- The inner `for c in range(nC)` loop: paths written so far (in
order) and the error, if any, that aborted the loop. -/
def cLoop (a : Args) (sceneId : Str) (names : List (Option Str)) :
    Nat → List (List Str) × Option Err
  | 0 => ([], none)
  | c + 1 =>
    match cLoop a sceneId names c with
    | (ps, some e) => (ps, some e)
    | (ps, none) =>
      match chPart names c with
      | .error e => (ps, some e)
      | .ok cp => (ps ++ [pathFor a sceneId cp], none)

/-- The `for t in range(nT)` loop around the channel loop. -/
def tLoop (a : Args) (sceneId : Str) (names : List (Option Str)) (nC : Nat) :
    Nat → List (List Str) × Option Err
  | 0 => ([], none)
  | t + 1 =>
    match tLoop a sceneId names nC t with
    | (ps, some e) => (ps, some e)
    | (ps, none) =>
      match cLoop a sceneId names nC with
      | (qs, r) => (ps ++ qs, r)

/-- `scene_channel_names`: per-scene metadata names with fallback to
the file-level baseline when absent or failing. -/
def effChannelNames (img : Image) (s : Scene) : Option (List Str) :=
  match s.channelNames with
  | some l => some l
  | none => img.baseChannelNames

/-- `(nC == 0 or nZ == 0) and not include_empty`. -/
def skipScene (a : Args) (s : Scene) : Bool :=
  (dimSize s 'C' = 0 || dimSize s 'Z' = 0) && !a.includeEmpty

/-- One iteration of the scene loop: the scene directory is created
first, then the skip test runs, then names are resolved and the
timepoint/channel loops write files. -/
def processScene (img : Image) (a : Args) (s : Scene) :
    List Event × List (List Str) × Option Err :=
  let sdir := a.outdir ++ [sceneDirName s.id]
  if skipScene a s then ([.mkdir sdir], [], none)
  else
    let nT := dimSize s 'T'
    let nC := dimSize s 'C'
    let names := resolveNames (overrideNames a) (effChannelNames img s) nC
    match tLoop a s.id names nC nT with
    | (ps, r) => (.mkdir sdir :: ps.map .write, ps, r)

/-- The scene loop over `img.scenes`; an uncaught error aborts it. -/
def runScenes (img : Image) (a : Args) :
    List Scene → List Event × List (List Str) × Option Err
  | [] => ([], [], none)
  | s :: rest =>
    match processScene img a s with
    | (ev, ps, some e) => (ev, ps, some e)
    | (ev, ps, none) =>
      match runScenes img a rest with
      | (ev2, ps2, r) => (ev ++ ev2, ps ++ ps2, r)

/-- `dtype` is acceptable: "native" or a key of `dtype_map`. -/
def dtypeValid (d : Str) : Bool :=
  d = str "native" || d = str "uint16" || d = str "uint8" || d = str "float32"

/-- The whole of `split_lif_to_channels`: the existence check, the
output-directory creation, the container open, the dtype validation,
then the scene loop.  Returns the event trace and either the returned
path list or the raised error. -/
def run (img : Image) (a : Args) : List Event × Except Err (List (List Str)) :=
  if !a.inputExists then ([], .error .inputNotFound)
  else
    let ev0 : List Event := [.mkdir a.outdir, .openImage]
    if !dtypeValid a.dtype then (ev0, .error .invalidArgument)
    else
      match runScenes img a img.scenes with
      | (ev, ps, none) => (ev0 ++ ev, .ok ps)
      | (ev, _, some e) => (ev0 ++ ev, .error e)

/-! ## Filesystem path-set model (for idempotence) -/

/-- A filesystem abstracted to the set of existing paths.  `mkdir`
with `exist_ok` and an overwriting file write both just ensure the
path exists. -/
abbrev FS := Finset (List Str)

/-- The path an event ensures exists, if any. -/
def eventPath : Event → Option (List Str)
  | .mkdir p => some p
  | .write p => some p
  | .openImage => none

/-- Apply one event to the path set. -/
def applyEvent (fs : FS) (e : Event) : FS :=
  match eventPath e with
  | some p => insert p fs
  | none => fs

/-- Apply a trace of events in order. -/
def applyEvents (evs : List Event) (fs : FS) : FS := evs.foldl applyEvent fs

/-- The paths a trace ensures exist. -/
def tracePaths (evs : List Event) : List (List Str) := evs.filterMap eventPath

/-! ## Spec-side definitions (for stating the claims) -/

/-- Membership in the character class `[A-Za-z0-9_.-]` of the spec
(`_` is U+005F, `.` is U+002E, `-` is U+002D). -/
def inAsciiClass (c : Char) : Bool :=
  (0x41 ≤ c.toNat && c.toNat ≤ 0x5A) || (0x61 ≤ c.toNat && c.toNat ≤ 0x7A) ||
  (0x30 ≤ c.toNat && c.toNat ≤ 0x39) ||
  c.toNat = 0x5F || c.toNat = 0x2E || c.toNat = 0x2D

/-- The string matches the regex `[A-Za-z0-9_.-]+` of the spec. -/
def matchesAsciiClassPlus (l : Str) : Bool :=
  !l.isEmpty && l.all inAsciiClass

/-- Total version of `chPart`: the channel discriminator the loop
produces whenever it does not raise. -/
def chPartTotal (names : List (Option Str)) (c : Nat) : Str :=
  match names.get? c with
  | some (some nm) => if nm.isEmpty then str "_c" ++ pad2 c else str "_ch-" ++ safe nm
  | _ => str "_c" ++ pad2 c

/-- The channel-name list resolved for a scene. -/
def sceneNames (img : Image) (a : Args) (s : Scene) : List (Option Str) :=
  resolveNames (overrideNames a) (effChannelNames img s) (dimSize s 'C')

/-- The paths one scene contributes, in write order
(timepoints 0..T-1 outer, channels 0..C-1 inner). -/
def scenePathsSpec (img : Image) (a : Args) (s : Scene) : List (List Str) :=
  if skipScene a s then []
  else
    (List.range (dimSize s 'T')).flatMap (fun _ =>
      (List.range (dimSize s 'C')).map (fun c =>
        pathFor a s.id (chPartTotal (sceneNames img a s) c)))

/-- All paths of a run in write order: scenes in library order, then
timepoints, then channels. -/
def expectedPaths (img : Image) (a : Args) : List (List Str) :=
  img.scenes.flatMap (scenePathsSpec img a)

/-- The number of files a run writes: `T * C` summed over the scenes
that are not skipped. -/
def expectedCount (img : Image) (a : Args) : Nat :=
  (img.scenes.map (fun s =>
    if skipScene a s then 0 else dimSize s 'T' * dimSize s 'C')).sum

/-- A path whose file name carries the `.ome.tif` suffix. -/
def endsWithOmeTif (p : List Str) : Prop :=
  ∃ d f, p = d ++ [f] ∧ str ".ome.tif" <:+ f

/-! ## Concrete instances used by counterexamples and witnesses -/

/-- A default argument record: existing input, stem `exp`, output
directory `out`, native dtype, `include_empty=False`, no override. -/
def baseArgs : Args :=
  { inputExists := true, stem := str "exp", outdir := [str "out"],
    dtype := str "native", includeEmpty := false, channelNames := none }

/-- An image with no scenes (its scene list is never reached on the
invalid-dtype path). -/
def imgNoScenes : Image := { scenes := [], baseChannelNames := none }

/-- `baseArgs` with the unsupported dtype `"int128"`. -/
def argsBadDtype : Args := { baseArgs with dtype := str "int128" }

/-- A scene with two timepoints and one channel (`T=2, C=1, Z=5`). -/
def sceneT2 : Scene :=
  { id := str "s1", labels := str "TCZYX", shape := [2, 1, 5, 4, 4],
    channelNames := none }

/-- Image holding only `sceneT2`. -/
def imgT2 : Image := { scenes := [sceneT2], baseChannelNames := none }

/-- A scene with three channels whose metadata channel-name list has
only one entry. -/
def sceneShortMeta : Scene :=
  { id := str "s1", labels := str "CZYX", shape := [3, 2, 4, 4],
    channelNames := some [str "DAPI"] }

/-- Image holding only `sceneShortMeta`. -/
def imgShortMeta : Image := { scenes := [sceneShortMeta], baseChannelNames := none }

/-- A three-channel scene without metadata channel names. -/
def sceneThree : Scene :=
  { id := str "pos1", labels := str "CZYX", shape := [3, 2, 4, 4],
    channelNames := none }

/-- Image holding only `sceneThree`. -/
def imgThree : Image := { scenes := [sceneThree], baseChannelNames := none }

/-- `baseArgs` with the user override `channel_names=["DAPI","GFP"]`. -/
def argsOverride : Args := { baseArgs with channelNames := some [str "DAPI", str "GFP"] }

/-- A scene with zero channels (`C=0`). -/
def sceneEmptyC : Scene :=
  { id := str "e0", labels := str "TCZYX", shape := [1, 0, 5, 4, 4],
    channelNames := none }

/-- Image holding only `sceneEmptyC`. -/
def imgEmptyC : Image := { scenes := [sceneEmptyC], baseChannelNames := none }

/-! ## Claim theorems -/

/-- C8: a missing input file raises `FileNotFoundError` before any
further work: the event trace is empty, so in particular no output
directory is created. -/
theorem c8_missing_input_fails_first (img : Image) (a : Args)
    (h : a.inputExists = false) :
    run img a = ([], .error .inputNotFound) := by
  simp [run, h]

/-- Witness for C8 at a concrete call. -/
theorem c8_missing_input_fails_first_witness :
    run imgNoScenes { baseArgs with inputExists := false } =
      ([], .error .inputNotFound) :=
  c8_missing_input_fails_first imgNoScenes _ rfl

/-- C1 (counterexample): with dtype `"int128"` the run does raise
`ValueError`, but the output directory has already been created and
the image container has already been opened when it does. -/
theorem c1_counterexample :
    (run imgNoScenes argsBadDtype).2 = .error .invalidArgument ∧
    Event.mkdir argsBadDtype.outdir ∈ (run imgNoScenes argsBadDtype).1 ∧
    Event.openImage ∈ (run imgNoScenes argsBadDtype).1 := by
  decide

/-- C1 (amended): an unsupported dtype raises `ValueError` after the
output directory is created and the container is opened, but before
any scene directory is created and before any file is written: the
trace is exactly the output-directory `mkdir` and the open. -/
theorem c1_invalid_dtype_rejected_before_scenes (img : Image) (a : Args)
    (hex : a.inputExists = true) (hd : dtypeValid a.dtype = false) :
    run img a = ([.mkdir a.outdir, .openImage], .error .invalidArgument) := by
  simp [run, hex, hd]

/-- Witness for the amended C1 at a concrete call. -/
theorem c1_invalid_dtype_rejected_before_scenes_witness :
    run imgNoScenes argsBadDtype =
      ([.mkdir argsBadDtype.outdir, .openImage], .error .invalidArgument) :=
  c1_invalid_dtype_rejected_before_scenes imgNoScenes argsBadDtype rfl (by decide)

/-- C3 (counterexample): with no override and a metadata channel-name
list shorter than the channel count, the resolved list keeps its short
length and indexing it fails: the run raises `IndexError`. -/
theorem c3_counterexample :
    (run imgShortMeta baseArgs).2 = .error .indexError ∧
    dimSize sceneShortMeta 'C' = 3 ∧
    (sceneNames imgShortMeta baseArgs sceneShortMeta).length = 1 := by
  decide

/-- C3 (amended): the resolved channel-name list has length equal to
the channel count when an override is supplied, or when there are no
metadata names, or when the metadata list is empty; but with a
(nonempty) metadata list and no override it is the metadata list
verbatim, whose length can differ from the channel count. -/
theorem c3_resolved_name_lengths (ov : List Str) (meta : Option (List Str))
    (l : List Str) (nC : Nat) :
    (resolveNames (some ov) meta nC).length = nC ∧
    (resolveNames none none nC).length = nC ∧
    (resolveNames none (some []) nC).length = nC ∧
    (resolveNames none (some l) nC).length = (if l.isEmpty then nC else l.length) := by
  refine ⟨by simp [resolveNames], by simp [resolveNames], by simp [resolveNames], ?_⟩
  simp only [resolveNames]
  split <;> simp_all

/-- C2 (counterexample): with `T=2, C=1`, the two tuples
`(scene, t=0, c=0)` and `(scene, t=1, c=0)` are both processed and
produce the same output path: the returned list repeats it. -/
theorem c2_counterexample :
    (run imgT2 baseArgs).2 =
      .ok [pathFor baseArgs (str "s1") (str "_c00"),
           pathFor baseArgs (str "s1") (str "_c00")] ∧
    dimSize sceneT2 'T' = 2 ∧ dimSize sceneT2 'C' = 1 := by
  decide

/-- C5: a user override list is applied positionally — resolved entry
`c` is `override[c]` when in range and `None` past its end — and with
`channel_names=["DAPI","GFP"]` on a 3-channel scene the run writes
`..._ch-DAPI...`, `..._ch-GFP...` and `..._c02...` in that order. -/
theorem c5_override_positional (ov : List Str) (meta : Option (List Str))
    (nC c : Nat) (hc : c < nC) :
    (resolveNames (some ov) meta nC).get? c = some (ov.get? c) ∧
    (run imgThree argsOverride).2 =
      .ok [pathFor argsOverride (str "pos1") (str "_ch-DAPI"),
           pathFor argsOverride (str "pos1") (str "_ch-GFP"),
           pathFor argsOverride (str "pos1") (str "_c02")] := by
  refine ⟨?_, by decide⟩
  have hr : (List.range nC)[c]? = some c := List.getElem?_range hc
  simp [resolveNames, List.get?_eq_getElem?, List.getElem?_map, hr]

/-- Witness for C5 at a concrete index. -/
theorem c5_override_positional_witness :
    (resolveNames (some [str "DAPI", str "GFP"]) none 3).get? 2 =
      some (List.get? [str "DAPI", str "GFP"] 2) :=
  (c5_override_positional [str "DAPI", str "GFP"] none 3 2 (by decide)).1

/-- C6: a scene with `C=0` or `Z=0` is skipped when
`include_empty=False`: it writes no file and contributes no entry, so
the run over `s :: rest` returns exactly the contribution of `rest`
(plus the scene-directory creation event). -/
theorem c6_empty_scene_contributes_nothing (img : Image) (a : Args) (s : Scene)
    (rest : List Scene)
    (hcz : dimSize s 'C' = 0 ∨ dimSize s 'Z' = 0) (hie : a.includeEmpty = false) :
    processScene img a s = ([.mkdir (a.outdir ++ [sceneDirName s.id])], [], none) ∧
    runScenes img a (s :: rest) =
      (Event.mkdir (a.outdir ++ [sceneDirName s.id]) :: (runScenes img a rest).1,
       (runScenes img a rest).2.1, (runScenes img a rest).2.2) := by
  have hskip : skipScene a s = true := by
    rcases hcz with h | h <;> simp [skipScene, h, hie]
  have hps : processScene img a s = ([.mkdir (a.outdir ++ [sceneDirName s.id])], [], none) := by
    simp [processScene, hskip]
  refine ⟨hps, ?_⟩
  rcases hrest : runScenes img a rest with ⟨ev2, ps2, r⟩
  simp [runScenes, hps, hrest]

/-- Witness for C6 at a concrete zero-channel scene. -/
theorem c6_empty_scene_contributes_nothing_witness :
    processScene imgEmptyC baseArgs sceneEmptyC =
      ([.mkdir (baseArgs.outdir ++ [sceneDirName sceneEmptyC.id])], [], none) ∧
    runScenes imgEmptyC baseArgs (sceneEmptyC :: []) =
      (Event.mkdir (baseArgs.outdir ++ [sceneDirName sceneEmptyC.id]) ::
         (runScenes imgEmptyC baseArgs []).1,
       (runScenes imgEmptyC baseArgs []).2.1,
       (runScenes imgEmptyC baseArgs []).2.2) :=
  c6_empty_scene_contributes_nothing imgEmptyC baseArgs sceneEmptyC []
    (Or.inl (by decide)) rfl

/-- C10: the per-scene directory is created before the empty-scene
test, so a scene skipped for `C=0` or `Z=0` still leaves its
`scene_<id>` directory in the trace while writing nothing into it. -/
theorem c10_scene_dir_created_before_skip (img : Image) (a : Args) (s : Scene)
    (rest : List Scene) (hex : a.inputExists = true)
    (hdv : dtypeValid a.dtype = true) (hsc : img.scenes = s :: rest)
    (hcz : dimSize s 'C' = 0 ∨ dimSize s 'Z' = 0) (hie : a.includeEmpty = false) :
    Event.mkdir (a.outdir ++ [sceneDirName s.id]) ∈ (run img a).1 ∧
    ∀ p, Event.write p ∉ (processScene img a s).1 := by
  have hskip : skipScene a s = true := by
    rcases hcz with h | h <;> simp [skipScene, h, hie]
  have hps : processScene img a s = ([.mkdir (a.outdir ++ [sceneDirName s.id])], [], none) := by
    simp [processScene, hskip]
  constructor
  · rcases hrest : runScenes img a rest with ⟨ev2, ps2, r⟩
    cases r <;> simp [run, hex, hdv, hsc, runScenes, hps, hrest]
  · intro p
    simp [hps]

/-- Witness for C10 at a concrete zero-channel scene. -/
theorem c10_scene_dir_created_before_skip_witness :
    Event.mkdir (baseArgs.outdir ++ [sceneDirName sceneEmptyC.id]) ∈
      (run imgEmptyC baseArgs).1 ∧
    ∀ p, Event.write p ∉ (processScene imgEmptyC baseArgs sceneEmptyC).1 :=
  c10_scene_dir_created_before_skip imgEmptyC baseArgs sceneEmptyC []
    rfl (by decide) rfl (Or.inl (by decide)) rfl

/-! ## The shape of a successful run (helper lemmas) -/

/-- When the channel discriminator does not raise, it agrees with its
total version. -/
theorem chPart_ok_total (names : List (Option Str)) (c : Nat) (cp : Str)
    (h : chPart names c = .ok cp) : chPartTotal names c = cp := by
  unfold chPart at h
  unfold chPartTotal
  split at h
  · next he =>
    have hn : names = [] := by simpa using he
    subst hn
    simp at h
    simp [h]
  · next he =>
    cases hg : names.get? c with
    | none => rw [hg] at h; exact absurd h (by simp)
    | some o =>
      rw [hg] at h
      cases o <;> simp_all [hg]

/-- A successful channel loop writes exactly one path per channel
index, in index order. -/
theorem cLoop_ok_paths (a : Args) (sid : Str) (names : List (Option Str)) :
    ∀ nC, (cLoop a sid names nC).2 = none →
      (cLoop a sid names nC).1 =
        (List.range nC).map (fun c => pathFor a sid (chPartTotal names c)) := by
  intro nC
  induction nC with
  | zero => intro _; simp [cLoop]
  | succ n ih =>
    intro h
    rcases hc : cLoop a sid names n with ⟨ps, r⟩
    cases r with
    | some e => rw [cLoop, hc] at h; simp at h
    | none =>
      rcases hp : chPart names n with e | cp
      · rw [cLoop, hc, hp] at h; simp at h
      · have hps := ih (by simp [hc])
        rw [hc] at hps
        simp [cLoop, hc, hp, List.range_succ,
          chPart_ok_total names n cp hp]
        exact hps

/-- A successful timepoint loop repeats the channel-loop paths once
per timepoint, in timepoint order. -/
theorem tLoop_ok_paths (a : Args) (sid : Str) (names : List (Option Str)) (nC : Nat) :
    ∀ nT, (tLoop a sid names nC nT).2 = none →
      (tLoop a sid names nC nT).1 =
        (List.range nT).flatMap (fun _ =>
          (List.range nC).map (fun c => pathFor a sid (chPartTotal names c))) := by
  intro nT
  induction nT with
  | zero => intro _; simp [tLoop]
  | succ n ih =>
    intro h
    rcases ht : tLoop a sid names nC n with ⟨ps, r⟩
    cases r with
    | some e => rw [tLoop, ht] at h; simp at h
    | none =>
      rcases hcl : cLoop a sid names nC with ⟨qs, rc⟩
      have hrc : rc = none := by
        rw [tLoop, ht, hcl] at h; simpa using h
      subst hrc
      have h1 := ih (by simp [ht])
      rw [ht] at h1
      have h2 := cLoop_ok_paths a sid names nC (by simp [hcl])
      rw [hcl] at h2
      simp [tLoop, ht, hcl, List.range_succ, h2]
      exact h1

/-- A scene that completes contributes exactly its specified paths. -/
theorem processScene_ok_paths (img : Image) (a : Args) (s : Scene)
    (h : (processScene img a s).2.2 = none) :
    (processScene img a s).2.1 = scenePathsSpec img a s := by
  by_cases hskip : skipScene a s
  · simp [processScene, scenePathsSpec, hskip]
  · rcases ht : tLoop a s.id
        (resolveNames (overrideNames a) (effChannelNames img s) (dimSize s 'C'))
        (dimSize s 'C') (dimSize s 'T') with ⟨ps, r⟩
    have hr : r = none := by
      have h2 : (processScene img a s).2.2 = r := by
        simp [processScene, hskip, ht]
      rw [h2] at h
      exact h
    subst hr
    have h2 := tLoop_ok_paths a s.id
      (resolveNames (overrideNames a) (effChannelNames img s) (dimSize s 'C'))
      (dimSize s 'C') (dimSize s 'T') (by rw [ht])
    rw [ht] at h2
    simp only at h2
    simp [processScene, scenePathsSpec, hskip, ht, sceneNames, h2]

/-- A scene loop that completes returns the concatenation of the
per-scene contributions, in scene order. -/
theorem runScenes_ok_paths (img : Image) (a : Args) :
    ∀ ss : List Scene, (runScenes img a ss).2.2 = none →
      (runScenes img a ss).2.1 = ss.flatMap (scenePathsSpec img a) := by
  intro ss
  induction ss with
  | nil => intro _; simp [runScenes]
  | cons s rest ih =>
    intro h
    rcases hps : processScene img a s with ⟨ev, ps, r⟩
    cases r with
    | some e => rw [runScenes, hps] at h; simp at h
    | none =>
      rcases hrest : runScenes img a rest with ⟨ev2, ps2, r2⟩
      have hr2 : r2 = none := by
        rw [runScenes, hps, hrest] at h; simpa using h
      subst hr2
      have h1 := processScene_ok_paths img a s (by rw [hps])
      rw [hps] at h1
      simp only at h1
      have h2 := ih (by rw [hrest])
      rw [hrest] at h2
      simp only at h2
      simp [runScenes, hps, hrest, h1, h2]

/-- A successful call returns exactly the expected paths. -/
theorem run_ok_paths (img : Image) (a : Args) (ps : List (List Str))
    (h : (run img a).2 = .ok ps) : ps = expectedPaths img a := by
  unfold run at h
  by_cases hex : a.inputExists
  · rw [if_neg (by simp [hex])] at h
    by_cases hd : dtypeValid a.dtype
    · rw [if_neg (by simp [hd])] at h
      rcases hrs : runScenes img a img.scenes with ⟨ev, qs, r⟩
      rw [hrs] at h
      cases r with
      | none =>
        simp at h
        have := runScenes_ok_paths img a img.scenes (by rw [hrs])
        rw [hrs] at this
        simp only at this
        rw [← h]
        exact this
      | some e => simp at h
    · rw [if_pos (by simp [hd])] at h
      simp at h
  · rw [if_pos (by simp [hex])] at h
    simp at h

/-- Length of one scene's contribution: `T * C`, or `0` if skipped. -/
theorem scenePathsSpec_length (img : Image) (a : Args) (s : Scene) :
    (scenePathsSpec img a s).length =
      if skipScene a s then 0 else dimSize s 'T' * dimSize s 'C' := by
  unfold scenePathsSpec
  split
  · simp
  · simp [List.length_flatMap, Function.comp_def, List.map_const, mul_comm]

/-- The expected path list has the expected count. -/
theorem expectedPaths_length (img : Image) (a : Args) :
    (expectedPaths img a).length = expectedCount img a := by
  unfold expectedPaths expectedCount
  rw [List.length_flatMap]
  congr 1
  exact List.map_congr_left (fun s _ => scenePathsSpec_length img a s)

/-- Every generated file name carries the `.ome.tif` suffix. -/
theorem fnameFor_ome_suffix (stem sid cp : Str) :
    str ".ome.tif" <:+ fnameFor stem sid cp := by
  have h : fnameFor stem sid cp =
      (stem ++ str "_scene-" ++ safe sid ++ cp) ++ str ".ome.tif" := by
    simp [fnameFor, List.append_assoc]
  rw [h]
  exact List.suffix_append _ _

/-- Every expected path is a file under some directory whose name
ends in `.ome.tif`. -/
theorem expectedPaths_ome (img : Image) (a : Args) (p : List Str)
    (hp : p ∈ expectedPaths img a) : endsWithOmeTif p := by
  rcases List.mem_flatMap.mp hp with ⟨s, _, hmem⟩
  unfold scenePathsSpec at hmem
  split at hmem
  · simp at hmem
  · rcases List.mem_flatMap.mp hmem with ⟨t, _, hmem2⟩
    rcases List.mem_map.mp hmem2 with ⟨c, _, hc⟩
    refine ⟨a.outdir ++ [sceneDirName s.id],
      fnameFor a.stem s.id (chPartTotal (sceneNames img a s) c), ?_, ?_⟩
    · rw [← hc]; simp [pathFor]
    · exact fnameFor_ome_suffix _ _ _

/-- C7: a call that returns, returns exactly the written paths in
write order — scenes in library order, timepoints then channels in
index order — every one with the `.ome.tif` suffix, and their number
is the sum of `T*C` over non-skipped scenes. -/
theorem c7_returned_paths_in_write_order (img : Image) (a : Args)
    (ps : List (List Str)) (h : (run img a).2 = .ok ps) :
    ps = expectedPaths img a ∧ ps.length = expectedCount img a ∧
    ∀ p ∈ ps, endsWithOmeTif p := by
  have he := run_ok_paths img a ps h
  subst he
  exact ⟨rfl, expectedPaths_length img a, fun p hp => expectedPaths_ome img a p hp⟩

/-- Witness for C7 at a concrete successful call. -/
theorem c7_returned_paths_in_write_order_witness :
    expectedPaths imgThree argsOverride = expectedPaths imgThree argsOverride ∧
    (expectedPaths imgThree argsOverride).length = expectedCount imgThree argsOverride ∧
    ∀ p ∈ expectedPaths imgThree argsOverride, endsWithOmeTif p :=
  c7_returned_paths_in_write_order imgThree argsOverride
    (expectedPaths imgThree argsOverride) (by decide)

/-! ## Idempotence of the filesystem effect -/

/-- Applying a trace adds exactly its paths to the path set. -/
theorem applyEvents_eq_union (evs : List Event) :
    ∀ fs : FS, applyEvents evs fs = fs ∪ (tracePaths evs).toFinset := by
  induction evs with
  | nil => intro fs; simp [applyEvents, tracePaths]
  | cons e evs ih =>
    intro fs
    cases he : eventPath e with
    | none =>
      simp [applyEvents, applyEvent, he, tracePaths, List.filterMap_cons]
      have := ih fs
      simp [applyEvents, tracePaths] at this
      exact this
    | some p =>
      have h1 : applyEvents (e :: evs) fs = applyEvents evs (insert p fs) := by
        simp [applyEvents, applyEvent, he]
      have h2 : tracePaths (e :: evs) = p :: tracePaths evs := by
        simp [tracePaths, List.filterMap_cons, he]
      rw [h1, h2, ih (insert p fs)]
      simp [Finset.insert_union, Finset.union_insert]

/-- C9: running the exporter again over the filesystem produced by a
first identical run changes nothing: every `mkdir` and every write
targets a path that already exists (files are overwritten, never
duplicated under fresh names), so the resulting path set is the same —
and being a pure function of its arguments, the repeated call also
returns the same path list. -/
theorem c9_second_run_same_paths (img : Image) (a : Args) (fs : FS) :
    applyEvents (run img a).1 (applyEvents (run img a).1 fs) =
      applyEvents (run img a).1 fs ∧
    run img a = run img a := by
  refine ⟨?_, rfl⟩
  rw [applyEvents_eq_union, applyEvents_eq_union,
    Finset.union_assoc, Finset.union_self]

/-! ## Channel-index padding (for the amended C2) -/

set_option maxHeartbeats 4000000 in
set_option maxRecDepth 100000 in
/-- The zero-padded index is injective below 100. -/
theorem pad2_inj_below100 :
    ∀ c1 < 100, ∀ c2 < 100, pad2 c1 = pad2 c2 → c1 = c2 := by decide

/-- C2 (amended): the output path does not embed the timepoint — a
successful timepoint loop writes the identical per-channel path block
once per timepoint — while within one scene index-labelled channels
below 100 always get distinct paths. -/
theorem c2_amended_unique_per_channel_only (a : Args) (sid : Str)
    (names : List (Option Str)) (nC nT c1 c2 : Nat)
    (hok : (tLoop a sid names nC nT).2 = none)
    (h1 : c1 < 100) (h2 : c2 < 100) (hne : c1 ≠ c2) :
    (tLoop a sid names nC nT).1 =
      (List.range nT).flatMap (fun _ =>
        (List.range nC).map (fun c => pathFor a sid (chPartTotal names c))) ∧
    pathFor a sid (str "_c" ++ pad2 c1) ≠ pathFor a sid (str "_c" ++ pad2 c2) := by
  refine ⟨tLoop_ok_paths a sid names nC nT hok, ?_⟩
  intro heq
  apply hne
  unfold pathFor at heq
  have h3 := List.append_cancel_left heq
  have h4 : fnameFor a.stem sid (str "_c" ++ pad2 c1) =
      fnameFor a.stem sid (str "_c" ++ pad2 c2) := by
    simpa using h3
  unfold fnameFor at h4
  have h5 := List.append_cancel_right h4
  have h6 := List.append_cancel_left h5
  have h7 := List.append_cancel_left h6
  exact pad2_inj_below100 c1 h1 c2 h2 h7

/-- Witness for the amended C2 at a concrete loop. -/
theorem c2_amended_unique_per_channel_only_witness :
    (tLoop baseArgs (str "s1") [none] 1 2).1 =
      (List.range 2).flatMap (fun _ =>
        (List.range 1).map (fun c =>
          pathFor baseArgs (str "s1") (chPartTotal [none] c))) ∧
    pathFor baseArgs (str "s1") (str "_c" ++ pad2 0) ≠
      pathFor baseArgs (str "s1") (str "_c" ++ pad2 1) :=
  c2_amended_unique_per_channel_only baseArgs (str "s1") [none] 1 2 0 1
    (by decide) (by decide) (by decide) (by decide)

/-! ## Sanitizer character analysis (for C4) -/

/-- Every character the substitution emits is an underscore or a kept
character of the input. -/
theorem mem_pySubAux (c : Char) :
    ∀ (l : List Char) (b : Bool), c ∈ pySubAux b l →
      c = '_' ∨ (c ∈ l ∧ keepChar c = true) := by
  intro l
  induction l with
  | nil => intro b h; simp [pySubAux] at h
  | cons d l ih =>
    intro b h
    by_cases hk : keepChar d
    · rw [pySubAux, if_pos hk] at h
      rcases List.mem_cons.mp h with h | h
      · subst h; exact Or.inr ⟨List.mem_cons_self _ _, hk⟩
      · rcases ih false h with h | ⟨h1, h2⟩
        · exact Or.inl h
        · exact Or.inr ⟨List.mem_cons_of_mem _ h1, h2⟩
    · cases b with
      | true =>
        rw [pySubAux, if_neg hk, if_pos rfl] at h
        rcases ih true h with h | ⟨h1, h2⟩
        · exact Or.inl h
        · exact Or.inr ⟨List.mem_cons_of_mem _ h1, h2⟩
      | false =>
        rw [pySubAux, if_neg hk] at h
        simp only [Bool.false_eq_true, if_false] at h
        rcases List.mem_cons.mp h with h | h
        · exact Or.inl h
        · rcases ih true h with h | ⟨h1, h2⟩
          · exact Or.inl h
          · exact Or.inr ⟨List.mem_cons_of_mem _ h1, h2⟩

/-- Stripping underscores only removes characters. -/
theorem mem_stripUnders (c : Char) (l : List Char) (h : c ∈ stripUnders l) :
    c ∈ l := by
  unfold stripUnders at h
  have h1 := List.mem_reverse.mp h
  have h2 := (List.dropWhile_sublist _).subset h1
  have h3 := List.mem_reverse.mp h2
  exact (List.dropWhile_sublist _).subset h3

/-- An ASCII character kept by the substitution is in the spec's
class `[A-Za-z0-9_.-]`. -/
theorem keepChar_ascii_class (c : Char) (hc : c.toNat < 128)
    (hk : keepChar c = true) : inAsciiClass c = true := by
  simp only [keepChar, pyIsWordChar, Bool.or_eq_true, Bool.and_eq_true,
    decide_eq_true_eq] at hk
  simp only [inAsciiClass, Bool.or_eq_true, Bool.and_eq_true, decide_eq_true_eq]
  omega

/-- On input with no kept character the substitution yields nothing
(inside a run) or a single underscore. -/
theorem pySubAux_no_keep :
    ∀ l : List Char, (∀ c ∈ l, keepChar c = false) →
      pySubAux true l = [] ∧
      pySubAux false l = if l.isEmpty then [] else ['_'] := by
  intro l
  induction l with
  | nil => intro _; simp [pySubAux]
  | cons d l ih =>
    intro h
    have hd : keepChar d = false := h d (List.mem_cons_self _ _)
    have hl := ih fun c hc => h c (List.mem_cons_of_mem _ hc)
    simp [pySubAux, hd, hl.1]

/-- C4 (counterexample): the Unicode-aware `\w` lets the non-ASCII
word character `é` through unchanged, so the sanitized result does not
match `[A-Za-z0-9_.-]+`; and `"."`, an all-punctuation name, maps to
itself rather than to `"unnamed"`. -/
theorem c4_counterexample :
    matchesAsciiClassPlus (safe (str "é")) = false ∧
    safe (str "é") = str "é" ∧
    safe (str ".") = str "." ∧ str "." ≠ str "unnamed" := by
  decide

/-- C4 (amended): on ASCII input the sanitizer produces a nonempty
string over `[A-Za-z0-9_.-]` by collapsing runs of other characters
to single underscores and stripping outer underscores;
`"Red/Green 1"` maps to `"Red_Green_1"`; and a name none of whose
characters are kept (no word character, `-` or `.`) maps to
`"unnamed"`. -/
theorem c4_sanitizer_ascii_class (s : Str) (h : ∀ c ∈ s, c.toNat < 128) :
    matchesAsciiClassPlus (safe s) = true ∧
    safe (str "Red/Green 1") = str "Red_Green_1" ∧
    ∀ t : Str, (∀ c ∈ t, keepChar c = false) → safe t = str "unnamed" := by
  refine ⟨?_, by decide, ?_⟩
  · unfold safe
    by_cases hstrip : (stripUnders (pySub s)).isEmpty
    · rw [if_pos hstrip]; decide
    · rw [if_neg hstrip]
      unfold matchesAsciiClassPlus
      rw [Bool.and_eq_true, List.all_eq_true]
      refine ⟨by simpa using hstrip, ?_⟩
      intro c hc
      rcases mem_pySubAux c s false (mem_stripUnders c _ hc) with hu | ⟨hmem, hk⟩
      · subst hu; decide
      · exact keepChar_ascii_class c (h c hmem) hk
  · intro t ht
    have h2 := (pySubAux_no_keep t ht).2
    unfold safe pySub
    rw [h2]
    by_cases hte : t.isEmpty
    · rw [if_pos hte]; decide
    · rw [if_neg hte]; decide

/-- Witness for the amended C4 on a concrete ASCII name. -/
theorem c4_sanitizer_ascii_class_witness :
    matchesAsciiClassPlus (safe (str "Red/Green 1")) = true ∧
    safe (str "Red/Green 1") = str "Red_Green_1" ∧
    ∀ t : Str, (∀ c ∈ t, keepChar c = false) → safe t = str "unnamed" :=
  c4_sanitizer_ascii_class (str "Red/Green 1") (by decide)

end LifSplit
